import Mathlib

/-!
A shallow embedding of the vacuum-cleaner agent simulator (`src/AI_Project.py`):
the grid environment, the two agent policies and the simulation runner.
The randomness of `np.random.choice` (grid construction) and of
`random.choice` (move selection) is made explicit as a cell sampler
respectively a stream of pick numbers; machine behaviour that can raise
(`IndexError` from numpy indexing or from `random.choice` on an empty
sequence) is modelled with `Option`, `none` being the raised error.
-/

namespace AIVacuum

/-- Global step cap from the source: `MAX_STEPS = 200`. -/
def MAX_STEPS : Nat := 200

/-- The action labels an agent step can return. -/
inductive Action
  | CLEAN | RIGHT | LEFT | DOWN | UP
deriving DecidableEq

/-- Indexing of one axis of length `n` of a numpy array at integer index `i`:
a nonnegative index must be `< n`; a negative index wraps once to `n + i`;
anything else is an `IndexError` (`none`). -/
def npIndex (n : Nat) (i : Int) : Option Nat :=
  if 0 ≤ i ∧ i < (n : Int) then some i.toNat
  else if -(n : Int) ≤ i ∧ i < 0 then some ((n : Int) + i).toNat
  else none

/-- Read entry `g[y][x]` of a 2D array stored as a list of rows. -/
def getCell2 (g : List (List α)) (y x : Nat) : Option α :=
  g[y]?.bind fun row => row[x]?

/-- Write entry `g[y][x] := v` of a 2D array stored as a list of rows
(out of range it is a no-op; the source only performs in-range writes). -/
def setCell2 (g : List (List α)) (y x : Nat) (v : α) : List (List α) :=
  g.set y ((g[y]?.getD []).set x v)

/-- `np.sum` of a 2D array of naturals. -/
def sumGrid (g : List (List Nat)) : Nat :=
  (g.map List.sum).sum

/-- Number of cells holding `1`, i.e. number of dirty cells. -/
def countDirty (g : List (List Nat)) : Nat :=
  (g.map (List.count 1)).sum

/-- `random.choice(l)`, the random draw being supplied as `pick` (the element
at index `pick % l.length` is chosen); on an empty sequence `random.choice`
raises `IndexError` (`none`). -/
def randomChoice (l : List α) (pick : Nat) : Option α :=
  if l.isEmpty then none else l[pick % l.length]?

/-- The environment: grid size, the 2D 0/1 grid (row-major, entry `grid[y][x]`
for coordinate `(x, y)`) and the `initial_dirt` snapshot. -/
structure VacuumEnvironment where
  size : Nat
  grid : List (List Nat)
  initial_dirt : Nat
deriving DecidableEq

/-- The sampled grid `np.random.choice([0, 1], size=(size, size), p=[1-p, p])`,
the Bernoulli draws being supplied by `sample`. -/
def mkGrid (size : Nat) (sample : Nat → Nat → Bool) : List (List Nat) :=
  (List.range size).map fun y => (List.range size).map fun x => if sample y x then 1 else 0

/-- `VacuumEnvironment.__init__`: stores the size, samples the grid, and
snapshots `initial_dirt = np.sum(grid)`. The source performs no validation
of its configuration (the sampler stands in for `dirt_probability`). -/
def VacuumEnvironment.init (size : Nat) (sample : Nat → Nat → Bool) : VacuumEnvironment :=
  let g := mkGrid size sample
  { size := size, grid := g, initial_dirt := sumGrid g }

/-- `is_dirty(x, y) = (grid[y, x] == 1)` with numpy index semantics;
`none` models a raised `IndexError`. -/
def VacuumEnvironment.is_dirty (env : VacuumEnvironment) (x y : Int) : Option Bool :=
  match npIndex env.size y, npIndex env.size x with
  | some yi, some xi => (getCell2 env.grid yi xi).map fun v => v == 1
  | _, _ => none

/-- `clean(x, y)`: on a dirty cell, zero it and return `True`; on a clean cell
return `False` with no side effect; numpy index semantics as in `is_dirty`. -/
def VacuumEnvironment.clean (env : VacuumEnvironment) (x y : Int) :
    Option (Bool × VacuumEnvironment) :=
  match npIndex env.size y, npIndex env.size x with
  | some yi, some xi =>
    match getCell2 env.grid yi xi with
    | some v =>
      if v == 1 then some (true, { env with grid := setCell2 env.grid yi xi 0 })
      else some (false, env)
    | none => none
  | _, _ => none

/-- `get_total_dirt() = np.sum(grid)` (the spec's `remaining_dirt`). -/
def VacuumEnvironment.get_total_dirt (env : VacuumEnvironment) : Nat :=
  sumGrid env.grid

/-- The candidate-move list both `act` methods build: the up-to-4 orthogonal
in-bounds neighbours of `(x, y)`, in source order RIGHT, LEFT, DOWN, UP. -/
def possibleMoves (size x y : Nat) : List (Action × Nat × Nat) :=
  (if x < size - 1 then [(Action.RIGHT, x + 1, y)] else []) ++
  (if x > 0 then [(Action.LEFT, x - 1, y)] else []) ++
  (if y < size - 1 then [(Action.DOWN, x, y + 1)] else []) ++
  (if y > 0 then [(Action.UP, x, y - 1)] else [])

/-- The simple reflex agent's state. -/
structure SimpleReflexAgent where
  env : VacuumEnvironment
  x : Nat
  y : Nat
  moves : Nat
  cleaned : Nat
deriving DecidableEq

/-- `SimpleReflexAgent.__init__`. -/
def SimpleReflexAgent.init (env : VacuumEnvironment) : SimpleReflexAgent :=
  { env := env, x := 0, y := 0, moves := 0, cleaned := 0 }

/-- `perceive()`: is the current cell dirty. -/
def SimpleReflexAgent.perceive (s : SimpleReflexAgent) : Option Bool :=
  s.env.is_dirty s.x s.y

/-- `SimpleReflexAgent.act()`, this step's random draw supplied as `pick`.
The outer `none` models a raised `IndexError`; the inner `none` is the
budget signal `return None` of the source. The source increments `moves`
on entry; since nothing later in the body reads `moves`, the increment is
recorded in each result here. -/
def SimpleReflexAgent.act (s : SimpleReflexAgent) (pick : Nat) :
    Option (Option Action × SimpleReflexAgent) :=
  if s.moves ≥ MAX_STEPS then some (none, s)
  else
    match s.perceive with
    | none => none
    | some true =>
      match s.env.clean s.x s.y with
      | none => none
      | some (res, env1) =>
        some (some Action.CLEAN,
          { s with moves := s.moves + 1, env := env1,
                   cleaned := s.cleaned + if res then 1 else 0 })
    | some false =>
      match randomChoice (possibleMoves s.env.size s.x s.y) pick with
      | none => none
      | some (dir, nx, ny) =>
        some (some dir, { s with moves := s.moves + 1, x := nx, y := ny })

/-- `get_stats()` of the reflex agent, efficiency as a rational. -/
def SimpleReflexAgent.get_stats (s : SimpleReflexAgent) : Nat × Nat × ℚ :=
  (s.moves, s.cleaned, if s.moves > 0 then (s.cleaned : ℚ) / (s.moves : ℚ) else 0)

/-- The model-based agent's state; `memory` holds `-1` (unknown),
`0` (known-clean) or `1` (known-dirty). -/
structure ModelBasedAgent where
  env : VacuumEnvironment
  x : Nat
  y : Nat
  moves : Nat
  cleaned : Nat
  memory : List (List Int)
deriving DecidableEq

/-- `np.full((size, size), -1)`. -/
def mkMemory (size : Nat) : List (List Int) :=
  (List.range size).map fun _ => (List.range size).map fun _ => (-1 : Int)

/-- `ModelBasedAgent.__init__`: memory all unknown except the start cell,
which the source marks known-clean before any perception. -/
def ModelBasedAgent.init (env : VacuumEnvironment) : ModelBasedAgent :=
  { env := env, x := 0, y := 0, moves := 0, cleaned := 0,
    memory := setCell2 (mkMemory env.size) 0 0 0 }

/-- `perceive()`: reads the current cell and records it into `memory`
(`1` dirty, `0` clean); the environment itself is not touched. -/
def ModelBasedAgent.perceive (m : ModelBasedAgent) : Option (Bool × ModelBasedAgent) :=
  (m.env.is_dirty m.x m.y).map fun d =>
    (d, { m with memory := setCell2 m.memory m.y m.x (if d then 1 else 0) })

/-- The `unvisited` list `ModelBasedAgent.act` builds on the agent state it
has after perceiving: the candidate moves whose memory entry is still `-1`
(unknown). -/
def modelUnexplored (m : ModelBasedAgent) : List (Action × Nat × Nat) :=
  (possibleMoves m.env.size m.x m.y).filter fun mv =>
    getCell2 m.memory mv.2.2 mv.2.1 == some (-1)

/-- The list `ModelBasedAgent.act` hands to `random.choice`: the unexplored
candidates when there are any, otherwise all candidates. -/
def modelCandidates (m : ModelBasedAgent) : List (Action × Nat × Nat) :=
  if (modelUnexplored m).isEmpty then possibleMoves m.env.size m.x m.y
  else modelUnexplored m

/-- `ModelBasedAgent.act()`, this step's random draw supplied as `pick`.
As in the reflex variant, the `moves` increment the source performs on
entry is recorded in each result. -/
def ModelBasedAgent.act (m : ModelBasedAgent) (pick : Nat) :
    Option (Option Action × ModelBasedAgent) :=
  if m.moves ≥ MAX_STEPS then some (none, m)
  else
    match m.perceive with
    | none => none
    | some (true, m1) =>
      match m1.env.clean m1.x m1.y with
      | none => none
      | some (res, env1) =>
        if res then
          some (some Action.CLEAN,
            { m1 with moves := m1.moves + 1, env := env1, cleaned := m1.cleaned + 1,
                      memory := setCell2 m1.memory m1.y m1.x 0 })
        else
          some (some Action.CLEAN, { m1 with moves := m1.moves + 1, env := env1 })
    | some (false, m1) =>
      match randomChoice (modelCandidates m1) pick with
      | none => none
      | some (dir, nx, ny) =>
        some (some dir, { m1 with moves := m1.moves + 1, x := nx, y := ny })

/-- `get_stats()` of the model-based agent. -/
def ModelBasedAgent.get_stats (m : ModelBasedAgent) : Nat × Nat × ℚ :=
  (m.moves, m.cleaned, if m.moves > 0 then (m.cleaned : ℚ) / (m.moves : ℚ) else 0)

/-- Which agent class `run_simulation` is handed. -/
inductive AgentKind | reflex | model
deriving DecidableEq

/-- A running agent of either variant, as the runner sees it. -/
inductive AgentS
  | reflex : SimpleReflexAgent → AgentS
  | model : ModelBasedAgent → AgentS
deriving DecidableEq

/-- The environment the agent is bound to. -/
def AgentS.env : AgentS → VacuumEnvironment
  | .reflex s => s.env
  | .model m => m.env

/-- The agent's x coordinate. -/
def AgentS.x : AgentS → Nat
  | .reflex s => s.x
  | .model m => m.x

/-- The agent's y coordinate. -/
def AgentS.y : AgentS → Nat
  | .reflex s => s.y
  | .model m => m.y

/-- The agent's move counter. -/
def AgentS.moves : AgentS → Nat
  | .reflex s => s.moves
  | .model m => m.moves

/-- The agent's cleaned counter. -/
def AgentS.cleaned : AgentS → Nat
  | .reflex s => s.cleaned
  | .model m => m.cleaned

/-- `act()` dispatched on the agent variant. -/
def AgentS.act : AgentS → Nat → Option (Option Action × AgentS)
  | .reflex s, pick => (s.act pick).map fun r => (r.1, AgentS.reflex r.2)
  | .model m, pick => (m.act pick).map fun r => (r.1, AgentS.model r.2)

/-- `agent_class(env)`: construct the agent of the given class. -/
def AgentKind.mkAgent : AgentKind → VacuumEnvironment → AgentS
  | .reflex, env => AgentS.reflex (SimpleReflexAgent.init env)
  | .model, env => AgentS.model (ModelBasedAgent.init env)

/-- The `while steps < max_steps` loop of `run_simulation`, `fuel` being
`max_steps - steps`: stop when the budget is reached or the dirt is gone;
otherwise call `act` (its returned action is ignored, as in the source)
and continue with `steps + 1`. -/
def runAux (picks : Nat → Nat) : Nat → Nat → AgentS → Option (Nat × AgentS)
  | 0, steps, a => some (steps, a)
  | fuel + 1, steps, a =>
    if a.env.get_total_dirt = 0 then some (steps, a)
    else
      match a.act (picks steps) with
      | none => none
      | some (_, a1) => runAux picks fuel (steps + 1) a1

/-- The `run_simulation` loop on a given environment, from step 0; returns
the final step counter and agent state. -/
def runSim (kind : AgentKind) (env : VacuumEnvironment) (picks : Nat → Nat)
    (max_steps : Nat) : Option (Nat × AgentS) :=
  runAux picks max_steps 0 (kind.mkAgent env)

/-- `run_simulation` as in the source: builds the 8×8 environment from the
sampler, runs the loop, and returns the outcome with `initial_dirt`. -/
def run_simulation (kind : AgentKind) (sample : Nat → Nat → Bool)
    (picks : Nat → Nat) (max_steps : Nat) : Option (Nat × AgentS × Nat) :=
  let env := VacuumEnvironment.init 8 sample
  (runSim kind env picks max_steps).map fun r => (r.1, r.2, env.initial_dirt)

/-- A raw sequence of `act()` calls with no runner in between, consuming one
pick per call; `none` if some call raises. -/
def iterActs (a : AgentS) : List Nat → Option AgentS
  | [] => some a
  | p :: ps =>
    match a.act p with
    | none => none
    | some (_, a1) => iterActs a1 ps

/-- Well-formed grid for size `N`: an `N × N` array of 0/1 cells; this is
what construction produces and what cleaning preserves. -/
def gridWF (N : Nat) (g : List (List Nat)) : Prop :=
  g.length = N ∧ (∀ row ∈ g, row.length = N) ∧ ∀ row ∈ g, ∀ v ∈ row, v ≤ 1

instance (N : Nat) (g : List (List Nat)) : Decidable (gridWF N g) := by
  unfold gridWF
  infer_instance

/-- Invariant the run loop maintains about the agent it drives: its
environment is a well-formed `N × N` grid, and on a non-degenerate grid
the agent's position is in bounds. -/
def InvA (N : Nat) (a : AgentS) : Prop :=
  a.env.size = N ∧ gridWF N a.env.grid ∧ (N = 0 ∨ (a.x < N ∧ a.y < N))

/-! ## Basic facts about cells, sums and indexing -/

theorem sum_set_nat (l : List Nat) (i w v : Nat) (h : l[i]? = some v) :
    (l.set i w).sum + v = l.sum + w := by
  induction l generalizing i with
  | nil => simp at h
  | cons a t ih =>
    cases i with
    | zero =>
      simp at h
      subst h
      simp [List.set]
      omega
    | succ n =>
      simp at h
      have := ih n h
      simp [List.set]
      omega

theorem getCell2_some (g : List (List α)) (y x : Nat) (v : α)
    (h : getCell2 g y x = some v) :
    ∃ row, g[y]? = some row ∧ row[x]? = some v := by
  unfold getCell2 at h
  cases hg : g[y]? with
  | none => rw [hg] at h; simp at h
  | some row =>
    rw [hg] at h
    simp at h
    exact ⟨row, rfl, h⟩

theorem setCell2_eq (g : List (List α)) (y x : Nat) (v : α) (row : List α)
    (hrow : g[y]? = some row) :
    setCell2 g y x v = g.set y (row.set x v) := by
  unfold setCell2
  rw [hrow]
  rfl

theorem getCell2_setCell2_self (g : List (List α)) (y x : Nat) (v w : α)
    (h : getCell2 g y x = some w) :
    getCell2 (setCell2 g y x v) y x = some v := by
  obtain ⟨row, hg, hx⟩ := getCell2_some g y x w h
  have hy : y < g.length := by
    by_contra hc
    push_neg at hc
    rw [List.getElem?_eq_none hc] at hg
    exact Option.noConfusion hg
  have hxlt : x < row.length := by
    by_contra hc
    push_neg at hc
    rw [List.getElem?_eq_none hc] at hx
    exact Option.noConfusion hx
  rw [setCell2_eq g y x v row hg]
  unfold getCell2
  rw [List.getElem?_set_self (by simpa using hy)]
  simp [List.getElem?_set_self (by simpa using hxlt)]

theorem sumGrid_setCell2 (g : List (List Nat)) (y x v w : Nat)
    (h : getCell2 g y x = some v) :
    sumGrid (setCell2 g y x w) + v = sumGrid g + w := by
  obtain ⟨row, hg, hx⟩ := getCell2_some g y x v h
  rw [setCell2_eq g y x w row hg]
  unfold sumGrid
  rw [List.map_set]
  have h1 : (g.map List.sum)[y]? = some row.sum := by
    rw [List.getElem?_map, hg]
    rfl
  have h2 := sum_set_nat (g.map List.sum) y ((row.set x w).sum) row.sum h1
  have h3 := sum_set_nat row x w v hx
  omega

theorem gridWF_setCell2 {N : Nat} {g : List (List Nat)} (h : gridWF N g)
    (y x v : Nat) (hv : v ≤ 1) : gridWF N (setCell2 g y x v) := by
  obtain ⟨hlen, hrows, hvals⟩ := h
  by_cases hy : y < g.length
  · have hg : g[y]? = some g[y] := (List.getElem?_eq_some_getElem_iff g y hy).mpr trivial
    rw [setCell2_eq g y x v _ hg]
    refine ⟨by simpa using hlen, ?_, ?_⟩
    · intro row hrow
      rcases List.mem_or_eq_of_mem_set hrow with hmem | heq
      · exact hrows _ hmem
      · rw [heq]
        simpa using hrows _ (List.getElem_mem hy)
    · intro row hrow v' hv'
      rcases List.mem_or_eq_of_mem_set hrow with hmem | heq
      · exact hvals _ hmem _ hv'
      · rw [heq] at hv'
        rcases List.mem_or_eq_of_mem_set hv' with hmem' | heq'
        · exact hvals _ (List.getElem_mem hy) _ hmem'
        · rw [heq']; exact hv
  · unfold setCell2
    rw [List.set_eq_of_length_le (by omega)]
    exact ⟨hlen, hrows, hvals⟩

theorem gridWF_getCell2 {N : Nat} {g : List (List Nat)} (h : gridWF N g)
    (y x : Nat) (hy : y < N) (hx : x < N) :
    ∃ v, getCell2 g y x = some v ∧ v ≤ 1 := by
  obtain ⟨hlen, hrows, hvals⟩ := h
  have hy' : y < g.length := by omega
  have hrow : g[y]? = some g[y] := (List.getElem?_eq_some_getElem_iff g y hy').mpr trivial
  have hmem : g[y] ∈ g := List.getElem_mem hy'
  have hxlen : x < (g[y]).length := by rw [hrows _ hmem]; exact hx
  refine ⟨(g[y])[x], ?_, hvals _ hmem _ (List.getElem_mem hxlen)⟩
  unfold getCell2
  rw [hrow]
  simp [(List.getElem?_eq_some_getElem_iff _ x hxlen).mpr trivial]

/-! ## Candidate moves and random choice -/

theorem mem_ite_singleton {c : Prop} [Decidable c] (a b : β) :
    (a ∈ if c then [b] else []) ↔ c ∧ a = b := by
  by_cases h : c <;> simp [h]

theorem possibleMoves_mem (N x y : Nat) (d : Action) (nx ny : Nat) :
    (d, nx, ny) ∈ possibleMoves N x y ↔
      (x < N - 1 ∧ d = Action.RIGHT ∧ nx = x + 1 ∧ ny = y) ∨
      (0 < x ∧ d = Action.LEFT ∧ nx = x - 1 ∧ ny = y) ∨
      (y < N - 1 ∧ d = Action.DOWN ∧ nx = x ∧ ny = y + 1) ∨
      (0 < y ∧ d = Action.UP ∧ nx = x ∧ ny = y - 1) := by
  simp only [possibleMoves, List.mem_append, mem_ite_singleton, Prod.mk.injEq]
  tauto

theorem possibleMoves_bounds (N x y nx ny : Nat) (d : Action)
    (_hx : x < N) (_hy : y < N) (h : (d, nx, ny) ∈ possibleMoves N x y) :
    nx < N ∧ ny < N := by
  rw [possibleMoves_mem] at h
  rcases h with ⟨h1, _, rfl, rfl⟩ | ⟨h1, _, rfl, rfl⟩ | ⟨h1, _, rfl, rfl⟩ | ⟨h1, _, rfl, rfl⟩ <;>
    omega

theorem possibleMoves_ne_nil (N x y : Nat) (hN : 2 ≤ N) (_hx : x < N) (_hy : y < N) :
    possibleMoves N x y ≠ [] := by
  by_cases h : x < N - 1
  · exact List.ne_nil_of_mem
      ((possibleMoves_mem N x y Action.RIGHT (x + 1) y).mpr (Or.inl ⟨h, rfl, rfl, rfl⟩))
  · have hx0 : 0 < x := by omega
    exact List.ne_nil_of_mem
      ((possibleMoves_mem N x y Action.LEFT (x - 1) y).mpr
        (Or.inr (Or.inl ⟨hx0, rfl, rfl, rfl⟩)))

theorem randomChoice_of_ne_nil (l : List α) (pick : Nat) (h : l ≠ []) :
    ∃ a, randomChoice l pick = some a ∧ a ∈ l := by
  have hlen : 0 < l.length := List.length_pos.mpr h
  have hmod : pick % l.length < l.length := Nat.mod_lt _ hlen
  refine ⟨l[pick % l.length], ?_, List.getElem_mem hmod⟩
  unfold randomChoice
  rw [if_neg (by simp [h])]
  exact (List.getElem?_eq_some_getElem_iff l _ hmod).mpr trivial

/-! ## Environment access lemmas -/

theorem npIndex_natCast (n x : Nat) (h : x < n) : npIndex n (x : Int) = some x := by
  unfold npIndex
  rw [if_pos ⟨Int.natCast_nonneg x, by exact_mod_cast h⟩]
  simp

theorem npIndex_none (n : Nat) (i : Int) (h : i < -(n : Int) ∨ (n : Int) ≤ i) :
    npIndex n i = none := by
  have h1 : ¬(0 ≤ i ∧ i < (n : Int)) := by omega
  have h2 : ¬(-(n : Int) ≤ i ∧ i < 0) := by omega
  unfold npIndex
  rw [if_neg h1, if_neg h2]

theorem npIndex_natCast_some (n x xi : Nat) (h : npIndex n (x : Int) = some xi) :
    x < n ∧ xi = x := by
  unfold npIndex at h
  by_cases h1 : 0 ≤ (x : Int) ∧ (x : Int) < (n : Int)
  · rw [if_pos h1] at h
    simp at h
    exact ⟨by exact_mod_cast h1.2, h.symm⟩
  · rw [if_neg h1] at h
    have h2 : ¬(-(n : Int) ≤ (x : Int) ∧ (x : Int) < 0) := by omega
    rw [if_neg h2] at h
    exact Option.noConfusion h

theorem is_dirty_eval (env : VacuumEnvironment) (x y v : Nat)
    (hx : x < env.size) (hy : y < env.size) (hv : getCell2 env.grid y x = some v) :
    env.is_dirty x y = some (v == 1) := by
  unfold VacuumEnvironment.is_dirty
  rw [npIndex_natCast _ _ hy, npIndex_natCast _ _ hx]
  simp [hv]

theorem is_dirty_inv (env : VacuumEnvironment) (x y : Nat) (d : Bool)
    (h : env.is_dirty x y = some d) :
    x < env.size ∧ y < env.size ∧ ∃ v, getCell2 env.grid y x = some v ∧ d = (v == 1) := by
  unfold VacuumEnvironment.is_dirty at h
  split at h
  · rename_i yiv xiv hyi hxi
    obtain ⟨hylt, hyeq⟩ := npIndex_natCast_some _ _ _ hyi
    obtain ⟨hxlt, hxeq⟩ := npIndex_natCast_some _ _ _ hxi
    rw [hyeq, hxeq] at h
    cases hc : getCell2 env.grid y x with
    | none => rw [hc] at h; exact Option.noConfusion h
    | some v =>
      rw [hc] at h
      simp at h
      exact ⟨hxlt, hylt, v, rfl, h.symm⟩
  · exact Option.noConfusion h

theorem clean_eval_dirty (env : VacuumEnvironment) (x y : Nat)
    (hx : x < env.size) (hy : y < env.size) (hv : getCell2 env.grid y x = some 1) :
    env.clean x y = some (true, { env with grid := setCell2 env.grid y x 0 }) := by
  unfold VacuumEnvironment.clean
  rw [npIndex_natCast _ _ hy, npIndex_natCast _ _ hx]
  simp [hv]

theorem clean_eval_zero (env : VacuumEnvironment) (x y v : Nat)
    (hx : x < env.size) (hy : y < env.size) (hv : getCell2 env.grid y x = some v)
    (h1 : v ≠ 1) :
    env.clean x y = some (false, env) := by
  unfold VacuumEnvironment.clean
  rw [npIndex_natCast _ _ hy, npIndex_natCast _ _ hx]
  simp [hv, h1]

theorem clean_preserves (env : VacuumEnvironment) (x y : Int) (res : Bool)
    (env' : VacuumEnvironment) (h : env.clean x y = some (res, env')) :
    env'.initial_dirt = env.initial_dirt ∧ env'.size = env.size ∧
      sumGrid env'.grid + (if res then 1 else 0) = sumGrid env.grid := by
  unfold VacuumEnvironment.clean at h
  split at h
  · rename_i yiv xiv hyi hxi
    split at h
    · rename_i v hget
      split at h
      · rename_i hv
        have hv1 : v = 1 := by simpa using hv
        subst hv1
        simp at h
        obtain ⟨hres, henv⟩ := h
        subst hres
        rw [← henv]
        refine ⟨rfl, rfl, ?_⟩
        have := sumGrid_setCell2 env.grid yiv xiv 1 0 hget
        simpa using this
      · simp at h
        obtain ⟨hres, henv⟩ := h
        subst hres
        rw [← henv]
        simp
    · exact Option.noConfusion h
  · exact Option.noConfusion h

theorem clean_wf {N : Nat} (env : VacuumEnvironment) (x y : Int) (res : Bool)
    (env' : VacuumEnvironment) (hwf : gridWF N env.grid)
    (h : env.clean x y = some (res, env')) : gridWF N env'.grid := by
  unfold VacuumEnvironment.clean at h
  split at h
  · rename_i yiv xiv hyi hxi
    split at h
    · rename_i v hget
      split at h
      · simp at h
        rw [← h.2]
        exact gridWF_setCell2 hwf yiv xiv 0 (by omega)
      · simp at h
        rw [← h.2]
        exact hwf
    · exact Option.noConfusion h
  · exact Option.noConfusion h

/-! ## Agent step evaluation lemmas -/

theorem reflex_act_budget (s : SimpleReflexAgent) (pick : Nat) (hm : MAX_STEPS ≤ s.moves) :
    s.act pick = some (none, s) := by
  unfold SimpleReflexAgent.act
  rw [if_pos hm]

theorem reflex_act_dirty (s : SimpleReflexAgent) (pick : Nat) (res : Bool)
    (env1 : VacuumEnvironment) (hm : s.moves < MAX_STEPS)
    (hd : s.env.is_dirty s.x s.y = some true)
    (hc : s.env.clean s.x s.y = some (res, env1)) :
    s.act pick = some (some Action.CLEAN,
      { s with moves := s.moves + 1, env := env1,
               cleaned := s.cleaned + if res then 1 else 0 }) := by
  unfold SimpleReflexAgent.act SimpleReflexAgent.perceive
  rw [if_neg (by omega)]
  rw [hd]
  simp [hc]

theorem reflex_act_move (s : SimpleReflexAgent) (pick : Nat) (d : Action) (nx ny : Nat)
    (hm : s.moves < MAX_STEPS)
    (hd : s.env.is_dirty s.x s.y = some false)
    (hch : randomChoice (possibleMoves s.env.size s.x s.y) pick = some (d, nx, ny)) :
    s.act pick = some (some d, { s with moves := s.moves + 1, x := nx, y := ny }) := by
  unfold SimpleReflexAgent.act SimpleReflexAgent.perceive
  rw [if_neg (by omega)]
  rw [hd]
  simp [hch]

theorem model_act_budget (m : ModelBasedAgent) (pick : Nat) (hm : MAX_STEPS ≤ m.moves) :
    m.act pick = some (none, m) := by
  unfold ModelBasedAgent.act
  rw [if_pos hm]

theorem model_perceive_eval (m : ModelBasedAgent) (d : Bool)
    (hd : m.env.is_dirty m.x m.y = some d) :
    m.perceive = some (d, { m with memory := setCell2 m.memory m.y m.x (if d then 1 else 0) }) := by
  unfold ModelBasedAgent.perceive
  rw [hd]
  rfl

theorem model_act_dirty (m : ModelBasedAgent) (pick : Nat) (env1 : VacuumEnvironment)
    (hm : m.moves < MAX_STEPS)
    (hd : m.env.is_dirty m.x m.y = some true)
    (hc : m.env.clean m.x m.y = some (true, env1)) :
    m.act pick = some (some Action.CLEAN,
      { m with moves := m.moves + 1, env := env1, cleaned := m.cleaned + 1,
               memory := setCell2 (setCell2 m.memory m.y m.x 1) m.y m.x 0 }) := by
  unfold ModelBasedAgent.act
  rw [if_neg (by omega)]
  rw [model_perceive_eval m true hd]
  simp [hc]

theorem model_act_move (m : ModelBasedAgent) (pick : Nat) (d : Action) (nx ny : Nat)
    (hm : m.moves < MAX_STEPS)
    (hd : m.env.is_dirty m.x m.y = some false)
    (hch : randomChoice
      (modelCandidates { m with memory := setCell2 m.memory m.y m.x 0 }) pick
      = some (d, nx, ny)) :
    m.act pick = some (some d,
      { m with moves := m.moves + 1, x := nx, y := ny,
               memory := setCell2 m.memory m.y m.x 0 }) := by
  unfold ModelBasedAgent.act
  rw [if_neg (by omega)]
  rw [model_perceive_eval m false hd]
  simp [hch]

theorem agentS_act_reflex (s : SimpleReflexAgent) (pick : Nat) :
    (AgentS.reflex s).act pick = (s.act pick).map fun r => (r.1, AgentS.reflex r.2) := rfl

theorem agentS_act_model (m : ModelBasedAgent) (pick : Nat) :
    (AgentS.model m).act pick = (m.act pick).map fun r => (r.1, AgentS.model r.2) := rfl

theorem model_perceive_inv (m : ModelBasedAgent) (d : Bool) (m1 : ModelBasedAgent)
    (h : m.perceive = some (d, m1)) :
    m.env.is_dirty m.x m.y = some d ∧
    m1 = { m with memory := setCell2 m.memory m.y m.x (if d then 1 else 0) } := by
  unfold ModelBasedAgent.perceive at h
  cases hd : m.env.is_dirty m.x m.y with
  | none => rw [hd] at h; exact Option.noConfusion h
  | some d' =>
    rw [hd] at h
    have h' : (d', { m with memory := setCell2 m.memory m.y m.x (if d' then 1 else 0) })
        = (d, m1) := Option.some_injective _ h
    injection h' with ha hb
    subst ha
    exact ⟨rfl, hb.symm⟩

/-! ## Conservation of dirt across a step -/

theorem reflex_act_inv (s : SimpleReflexAgent) (pick : Nat) (r : Option Action)
    (s1 : SimpleReflexAgent) (h : s.act pick = some (r, s1)) :
    s1.cleaned + sumGrid s1.env.grid = s.cleaned + sumGrid s.env.grid ∧
    s1.env.initial_dirt = s.env.initial_dirt ∧ s1.env.size = s.env.size := by
  unfold SimpleReflexAgent.act at h
  split at h
  · simp at h
    rw [← h.2]
    exact ⟨rfl, rfl, rfl⟩
  · split at h
    · exact Option.noConfusion h
    · split at h
      · exact Option.noConfusion h
      · rename_i res env1 hclean
        simp at h
        rw [← h.2]
        obtain ⟨h1, h2, h3⟩ := clean_preserves s.env _ _ res env1 hclean
        refine ⟨?_, h1, h2⟩
        cases res <;> simp at h3 ⊢ <;> omega
    · split at h
      · exact Option.noConfusion h
      · rename_i d nx ny hch
        simp at h
        rw [← h.2]
        exact ⟨rfl, rfl, rfl⟩

theorem model_act_inv (m : ModelBasedAgent) (pick : Nat) (r : Option Action)
    (m3 : ModelBasedAgent) (h : m.act pick = some (r, m3)) :
    m3.cleaned + sumGrid m3.env.grid = m.cleaned + sumGrid m.env.grid ∧
    m3.env.initial_dirt = m.env.initial_dirt ∧ m3.env.size = m.env.size := by
  unfold ModelBasedAgent.act at h
  split at h
  · simp at h
    rw [← h.2]
    exact ⟨rfl, rfl, rfl⟩
  · split at h
    · exact Option.noConfusion h
    · rename_i m1 hperc
      obtain ⟨hd, hm1⟩ := model_perceive_inv m true m1 hperc
      split at h
      · exact Option.noConfusion h
      · rename_i res env1 hclean
        obtain ⟨h1, h2, h3⟩ := clean_preserves m1.env _ _ res env1 hclean
        split at h
        · rename_i hres
          subst hres
          simp at h
          rw [← h.2]
          subst hm1
          simp at h1 h2 h3 ⊢
          omega
        · simp at h
          rw [← h.2]
          subst hm1
          have hres : res = false := by
            rename_i hres
            simp at hres
            exact hres
          subst hres
          simp at h1 h2 h3 ⊢
          omega
    · rename_i m1 hperc
      obtain ⟨hd, hm1⟩ := model_perceive_inv m false m1 hperc
      split at h
      · exact Option.noConfusion h
      · rename_i d nx ny hch
        simp at h
        rw [← h.2]
        subst hm1
        simp

theorem agentS_act_inv (a : AgentS) (pick : Nat) (r : Option Action) (a1 : AgentS)
    (h : a.act pick = some (r, a1)) :
    a1.cleaned + sumGrid a1.env.grid = a.cleaned + sumGrid a.env.grid ∧
    a1.env.initial_dirt = a.env.initial_dirt ∧ a1.env.size = a.env.size := by
  cases a with
  | reflex s =>
    rw [agentS_act_reflex] at h
    cases hact : s.act pick with
    | none => rw [hact] at h; exact Option.noConfusion h
    | some p =>
      rw [hact] at h
      simp at h
      rw [← h.2]
      simpa [AgentS.cleaned, AgentS.env] using reflex_act_inv s pick p.1 p.2 (by rw [hact])
  | model m =>
    rw [agentS_act_model] at h
    cases hact : m.act pick with
    | none => rw [hact] at h; exact Option.noConfusion h
    | some p =>
      rw [hact] at h
      simp at h
      rw [← h.2]
      simpa [AgentS.cleaned, AgentS.env] using model_act_inv m pick p.1 p.2 (by rw [hact])

/-! ## Totality of a step under the runner's invariant -/

theorem sumGrid_single (g : List (List Nat)) (h : gridWF 1 g)
    (h0 : getCell2 g 0 0 = some 0) : sumGrid g = 0 := by
  obtain ⟨hlen, hrows, _⟩ := h
  obtain ⟨row, rfl⟩ := List.length_eq_one.mp hlen
  obtain ⟨v, rfl⟩ := List.length_eq_one.mp (hrows row (by simp))
  simp [getCell2] at h0
  simp [sumGrid, h0]

theorem modelCandidates_ne_nil (m : ModelBasedAgent)
    (h : possibleMoves m.env.size m.x m.y ≠ []) : modelCandidates m ≠ [] := by
  unfold modelCandidates
  split
  · exact h
  · rename_i hne
    simpa [modelUnexplored] using hne

theorem modelCandidates_subset (m : ModelBasedAgent) (mv : Action × Nat × Nat)
    (h : mv ∈ modelCandidates m) : mv ∈ possibleMoves m.env.size m.x m.y := by
  unfold modelCandidates at h
  split at h
  · exact h
  · unfold modelUnexplored at h
    exact (List.mem_filter.mp h).1

theorem agent_act_step (N : Nat) (a : AgentS) (pick : Nat)
    (hInv : InvA N a) (hdirt : sumGrid a.env.grid ≠ 0) (hm : a.moves < MAX_STEPS) :
    ∃ r a1, a.act pick = some (some r, a1) ∧ InvA N a1 ∧ a1.moves = a.moves + 1 := by
  obtain ⟨hsz, hwf, hpos⟩ := hInv
  have hN : 0 < N := by
    rcases Nat.eq_zero_or_pos N with h0 | h
    · subst h0
      rw [List.length_eq_zero.mp hwf.1] at hdirt
      simp [sumGrid] at hdirt
    · exact h
  obtain ⟨hx, hy⟩ : a.x < N ∧ a.y < N := by
    rcases hpos with h0 | h
    · omega
    · exact h
  obtain ⟨v, hget, hv1⟩ := gridWF_getCell2 hwf a.y a.x hy hx
  cases a with
  | reflex s =>
    simp only [AgentS.x, AgentS.y, AgentS.env, AgentS.moves] at hsz hwf hx hy hget hm hdirt
    by_cases hv : v = 1
    · subst hv
      have hd : s.env.is_dirty s.x s.y = some true := by
        simpa using is_dirty_eval s.env s.x s.y 1 (by omega) (by omega) hget
      have hc := clean_eval_dirty s.env s.x s.y (by omega) (by omega) hget
      refine ⟨Action.CLEAN,
        AgentS.reflex
          { s with
            moves := s.moves + 1
            env := { s.env with grid := setCell2 s.env.grid s.y s.x 0 }
            cleaned := s.cleaned + 1 },
        ?_, ?_, ?_⟩
      · rw [agentS_act_reflex, reflex_act_dirty s pick true _ hm hd hc]
        rfl
      · exact ⟨hsz, gridWF_setCell2 hwf s.y s.x 0 (by omega), Or.inr ⟨hx, hy⟩⟩
      · rfl
    · have hv0 : v = 0 := by omega
      subst hv0
      have hd : s.env.is_dirty s.x s.y = some false := by
        simpa using is_dirty_eval s.env s.x s.y 0 (by omega) (by omega) hget
      have hN2 : 2 ≤ N := by
        rcases Nat.lt_or_ge N 2 with h2 | h2
        · exfalso
          have hN1 : N = 1 := by omega
          subst hN1
          have hx0 : s.x = 0 := by omega
          have hy0 : s.y = 0 := by omega
          rw [hx0, hy0] at hget
          exact hdirt (sumGrid_single s.env.grid hwf hget)
        · exact h2
      have hpm := possibleMoves_ne_nil N s.x s.y hN2 hx hy
      obtain ⟨⟨d, nx, ny⟩, hch, hmem⟩ :=
        randomChoice_of_ne_nil (possibleMoves s.env.size s.x s.y) pick (by rw [hsz]; exact hpm)
      have hb := possibleMoves_bounds N s.x s.y nx ny d hx hy (by rw [hsz] at hmem; exact hmem)
      refine ⟨d,
        AgentS.reflex
          { s with
            moves := s.moves + 1
            x := nx
            y := ny },
        ?_, ?_, ?_⟩
      · rw [agentS_act_reflex, reflex_act_move s pick d nx ny hm hd hch]
        rfl
      · exact ⟨hsz, hwf, Or.inr hb⟩
      · rfl
  | model m =>
    simp only [AgentS.x, AgentS.y, AgentS.env, AgentS.moves] at hsz hwf hx hy hget hm hdirt
    by_cases hv : v = 1
    · subst hv
      have hd : m.env.is_dirty m.x m.y = some true := by
        simpa using is_dirty_eval m.env m.x m.y 1 (by omega) (by omega) hget
      have hc := clean_eval_dirty m.env m.x m.y (by omega) (by omega) hget
      refine ⟨Action.CLEAN,
        AgentS.model
          { m with
            moves := m.moves + 1
            env := { m.env with grid := setCell2 m.env.grid m.y m.x 0 }
            cleaned := m.cleaned + 1
            memory := setCell2 (setCell2 m.memory m.y m.x 1) m.y m.x 0 },
        ?_, ?_, ?_⟩
      · rw [agentS_act_model, model_act_dirty m pick _ hm hd hc]
        rfl
      · exact ⟨hsz, gridWF_setCell2 hwf m.y m.x 0 (by omega), Or.inr ⟨hx, hy⟩⟩
      · rfl
    · have hv0 : v = 0 := by omega
      subst hv0
      have hd : m.env.is_dirty m.x m.y = some false := by
        simpa using is_dirty_eval m.env m.x m.y 0 (by omega) (by omega) hget
      have hN2 : 2 ≤ N := by
        rcases Nat.lt_or_ge N 2 with h2 | h2
        · exfalso
          have hN1 : N = 1 := by omega
          subst hN1
          have hx0 : m.x = 0 := by omega
          have hy0 : m.y = 0 := by omega
          rw [hx0, hy0] at hget
          exact hdirt (sumGrid_single m.env.grid hwf hget)
        · exact h2
      have hpm := possibleMoves_ne_nil N m.x m.y hN2 hx hy
      have hpm2 : possibleMoves m.env.size m.x m.y ≠ [] := by
        rw [hsz]
        exact hpm
      have hcands : modelCandidates { m with memory := setCell2 m.memory m.y m.x 0 } ≠ [] :=
        modelCandidates_ne_nil { m with memory := setCell2 m.memory m.y m.x 0 } hpm2
      obtain ⟨⟨d, nx, ny⟩, hch, hmem⟩ :=
        randomChoice_of_ne_nil (modelCandidates { m with memory := setCell2 m.memory m.y m.x 0 })
          pick hcands
      have hmempm : (d, nx, ny) ∈ possibleMoves N m.x m.y := by
        rw [← hsz]
        exact modelCandidates_subset { m with memory := setCell2 m.memory m.y m.x 0 } _ hmem
      have hb := possibleMoves_bounds N m.x m.y nx ny d hx hy hmempm
      refine ⟨d,
        AgentS.model
          { m with
            moves := m.moves + 1
            x := nx
            y := ny
            memory := setCell2 m.memory m.y m.x 0 },
        ?_, ?_, ?_⟩
      · rw [agentS_act_model, model_act_move m pick d nx ny hm hd hch]
        rfl
      · exact ⟨hsz, hwf, Or.inr hb⟩
      · rfl


/-! ## The run loop -/

theorem mkAgent_InvA (kind : AgentKind) (env : VacuumEnvironment)
    (hwf : gridWF env.size env.grid) : InvA env.size (kind.mkAgent env) := by
  have hpos : env.size = 0 ∨ (0 < env.size ∧ 0 < env.size) := by omega
  cases kind with
  | reflex => exact ⟨rfl, hwf, hpos⟩
  | model => exact ⟨rfl, hwf, hpos⟩

theorem mkAgent_moves (kind : AgentKind) (env : VacuumEnvironment) :
    (kind.mkAgent env).moves = 0 := by
  cases kind <;> rfl

theorem runAux_spec (picks : Nat → Nat) (N : Nat) :
    ∀ (fuel steps : Nat) (a : AgentS), InvA N a → a.moves = steps →
      steps + fuel ≤ MAX_STEPS →
      ∃ steps' a', runAux picks fuel steps a = some (steps', a') ∧
        InvA N a' ∧ a'.moves = steps' ∧ steps ≤ steps' ∧ steps' ≤ steps + fuel ∧
        (sumGrid a'.env.grid = 0 ∨ steps' = steps + fuel) := by
  intro fuel
  induction fuel with
  | zero =>
    intro steps a hInv hmv _hle
    exact ⟨steps, a, rfl, hInv, hmv, Nat.le_refl _, Nat.le_refl _, Or.inr rfl⟩
  | succ n ih =>
    intro steps a hInv hmv hle
    by_cases h0 : a.env.get_total_dirt = 0
    · refine ⟨steps, a, ?_, hInv, hmv, Nat.le_refl _, by omega, Or.inl ?_⟩
      · unfold runAux
        rw [if_pos h0]
      · simpa [VacuumEnvironment.get_total_dirt] using h0
    · have hdirt : sumGrid a.env.grid ≠ 0 := by
        simpa [VacuumEnvironment.get_total_dirt] using h0
      have hm : a.moves < MAX_STEPS := by omega
      obtain ⟨r, a1, hact, hInv1, hmv1⟩ := agent_act_step N a (picks steps) hInv hdirt hm
      obtain ⟨steps', a', hrun, hInv', hmv', hge, hub, hdisj⟩ :=
        ih (steps + 1) a1 hInv1 (by omega) (by omega)
      refine ⟨steps', a', ?_, hInv', hmv', by omega, by omega, ?_⟩
      · unfold runAux
        rw [if_neg h0, hact]
        exact hrun
      · rcases hdisj with h | h
        · exact Or.inl h
        · exact Or.inr (by omega)

/-! ## Raw act sequences and construction facts -/

theorem iterActs_inv (ps : List Nat) :
    ∀ (a a' : AgentS), iterActs a ps = some a' →
      a'.cleaned + sumGrid a'.env.grid = a.cleaned + sumGrid a.env.grid ∧
      a'.env.initial_dirt = a.env.initial_dirt := by
  induction ps with
  | nil =>
    intro a a' h
    have h' : a = a' := Option.some_injective _ h
    rw [← h']
    exact ⟨rfl, rfl⟩
  | cons p ps ih =>
    intro a a' h
    unfold iterActs at h
    cases hact : a.act p with
    | none => rw [hact] at h; exact Option.noConfusion h
    | some r =>
      obtain ⟨r1, a1⟩ := r
      rw [hact] at h
      obtain ⟨h1, h2, _⟩ := agentS_act_inv a p r1 a1 hact
      obtain ⟨h4, h5⟩ := ih a1 a' h
      constructor <;> omega

theorem mkGrid_wf (size : Nat) (sample : Nat → Nat → Bool) :
    gridWF size (mkGrid size sample) := by
  refine ⟨by simp [mkGrid], ?_, ?_⟩
  · intro row hrow
    simp [mkGrid] at hrow
    obtain ⟨y, _, rfl⟩ := hrow
    simp
  · intro row hrow v hv
    simp [mkGrid] at hrow
    obtain ⟨y, _, rfl⟩ := hrow
    simp at hv
    obtain ⟨x, _, hvv⟩ := hv
    rw [← hvv]
    split <;> omega

theorem sum_eq_count_one (l : List Nat) (h : ∀ v ∈ l, v ≤ 1) :
    l.sum = l.count 1 := by
  induction l with
  | nil => simp
  | cons a t ih =>
    have ha : a ≤ 1 := h a (by simp)
    have ht := ih fun v hv => h v (by simp [hv])
    rcases Nat.le_one_iff_eq_zero_or_eq_one.mp ha with rfl | rfl
    · simp [List.count_cons, ht]
    · simp [List.count_cons, ht]
      omega

theorem sumGrid_eq_countDirty (g : List (List Nat))
    (h : ∀ row ∈ g, ∀ v ∈ row, v ≤ 1) : sumGrid g = countDirty g := by
  unfold sumGrid countDirty
  induction g with
  | nil => rfl
  | cons row t ih =>
    simp only [List.map_cons, List.sum_cons]
    rw [sum_eq_count_one row (h row (by simp)),
      ih fun r hr v hv => h r (by simp [hr]) v hv]

theorem getCell2_exists_of_lt (g : List (List α)) (y x : Nat)
    (hy : y < g.length) (hx : ∀ row ∈ g, x < row.length) :
    ∃ v, getCell2 g y x = some v := by
  have hrow : g[y]? = some g[y] := (List.getElem?_eq_some_getElem_iff g y hy).mpr trivial
  have hxlen : x < (g[y]).length := hx _ (List.getElem_mem hy)
  refine ⟨(g[y])[x], ?_⟩
  unfold getCell2
  rw [hrow]
  simp [(List.getElem?_eq_some_getElem_iff _ x hxlen).mpr trivial]

theorem reflex_act_empty (s : SimpleReflexAgent) (pick : Nat)
    (hm : s.moves < MAX_STEPS)
    (hd : s.env.is_dirty s.x s.y = some false)
    (hpm : possibleMoves s.env.size s.x s.y = []) :
    s.act pick = none := by
  unfold SimpleReflexAgent.act SimpleReflexAgent.perceive
  rw [if_neg (by omega), hd, hpm]
  rfl

theorem npIndex_in_range (n : Nat) (i : Int) (h1 : -(n : Int) ≤ i)
    (h2 : i < (n : Int)) : ∃ j, npIndex n i = some j ∧ j < n := by
  unfold npIndex
  by_cases h0 : 0 ≤ i
  · rw [if_pos ⟨h0, h2⟩]
    exact ⟨i.toNat, rfl, by omega⟩
  · rw [if_neg (by omega), if_pos ⟨h1, by omega⟩]
    exact ⟨((n : Int) + i).toNat, rfl, by omega⟩

theorem is_dirty_none_of_bad (env : VacuumEnvironment) (x y : Int)
    (h : npIndex env.size x = none ∨ npIndex env.size y = none) :
    env.is_dirty x y = none := by
  unfold VacuumEnvironment.is_dirty
  rcases h with h | h
  · cases hyi : npIndex env.size y
    · rfl
    · rw [h]
  · rw [h]

theorem clean_none_of_bad (env : VacuumEnvironment) (x y : Int)
    (h : npIndex env.size x = none ∨ npIndex env.size y = none) :
    env.clean x y = none := by
  unfold VacuumEnvironment.clean
  rcases h with h | h
  · cases hyi : npIndex env.size y
    · rfl
    · rw [h]
  · rw [h]

/-! ## The claims -/

/-- C4 (counterexample): on a 2×2 environment the coordinates
`x = -1, y = -1` lie outside `[0, N)` yet do NOT fail: numpy's negative
indexing wraps them to the cell `(1, 1)`, so `is_dirty` returns the
normal result `True` and `clean` normally cleans that cell. This refutes
the claim that out-of-range queries, negative coordinates included,
never return a normal result. -/
theorem C4_negative_wraps_counterexample :
    (VacuumEnvironment.mk 2 [[0, 0], [0, 1]] 1).is_dirty (-1) (-1) = some true ∧
    (VacuumEnvironment.mk 2 [[0, 0], [0, 1]] 1).clean (-1) (-1)
      = some (true, VacuumEnvironment.mk 2 [[0, 0], [0, 0]] 1) := by
  constructor <;> rfl

/-- C4 (amended): `is_dirty` and `clean` fail (numpy `IndexError`, modelled
as `none`) for every coordinate that is `≥ N` or `< -N`; but whenever both
coordinates lie in numpy's accepted range `[-N, N)` — negative ones, in
`[-N, -1]`, wrapping around to index from the end — BOTH operations return
a normal result on a well-formed grid, so negative coordinates never fail. -/
theorem C4_out_of_bounds_fail :
    (∀ (env : VacuumEnvironment) (x y : Int),
      (x < -(env.size : Int) ∨ (env.size : Int) ≤ x ∨
       y < -(env.size : Int) ∨ (env.size : Int) ≤ y) →
      env.is_dirty x y = none ∧ env.clean x y = none) ∧
    (∀ (env : VacuumEnvironment) (x y : Int), gridWF env.size env.grid →
      -(env.size : Int) ≤ x → x < (env.size : Int) →
      -(env.size : Int) ≤ y → y < (env.size : Int) →
      (∃ b, env.is_dirty x y = some b) ∧ ∃ r, env.clean x y = some r) := by
  constructor
  · intro env x y h
    have hbad : npIndex env.size x = none ∨ npIndex env.size y = none := by
      rcases h with h | h | h | h
      · exact Or.inl (npIndex_none _ _ (Or.inl h))
      · exact Or.inl (npIndex_none _ _ (Or.inr h))
      · exact Or.inr (npIndex_none _ _ (Or.inl h))
      · exact Or.inr (npIndex_none _ _ (Or.inr h))
    exact ⟨is_dirty_none_of_bad env x y hbad, clean_none_of_bad env x y hbad⟩
  · intro env x y hwf h1 h2 h3 h4
    obtain ⟨jx, hjx, hjxlt⟩ := npIndex_in_range env.size x h1 h2
    obtain ⟨jy, hjy, hjylt⟩ := npIndex_in_range env.size y h3 h4
    obtain ⟨v, hv, -⟩ := gridWF_getCell2 hwf jy jx hjylt hjxlt
    constructor
    · refine ⟨v == 1, ?_⟩
      unfold VacuumEnvironment.is_dirty
      rw [hjy, hjx]
      simp [hv]
    · refine ⟨if v == 1 then (true, { env with grid := setCell2 env.grid jy jx 0 })
        else (false, env), ?_⟩
      unfold VacuumEnvironment.clean
      rw [hjy, hjx]
      by_cases hv1 : v == 1
      · simp [hv, hv1]
      · simp [hv, hv1]

/-- C4 (witness for the amended theorem): on a concrete 2×2 environment,
`(5, 0)` fails for both operations while at the wrapped negative
coordinates `(-2, -1)` both operations return a normal result. -/
theorem C4_out_of_bounds_fail_witness :
    ((VacuumEnvironment.mk 2 [[0, 0], [0, 1]] 1).is_dirty 5 0 = none ∧
     (VacuumEnvironment.mk 2 [[0, 0], [0, 1]] 1).clean 5 0 = none) ∧
    (∃ b, (VacuumEnvironment.mk 2 [[0, 0], [0, 1]] 1).is_dirty (-2) (-1) = some b) ∧
    ∃ r, (VacuumEnvironment.mk 2 [[0, 0], [0, 1]] 1).clean (-2) (-1) = some r :=
  ⟨C4_out_of_bounds_fail.1 (VacuumEnvironment.mk 2 [[0, 0], [0, 1]] 1) 5 0
      (Or.inr (Or.inl (by decide))),
   (C4_out_of_bounds_fail.2 (VacuumEnvironment.mk 2 [[0, 0], [0, 1]] 1) (-2) (-1)
      (by decide) (by decide) (by decide) (by decide) (by decide)).1,
   (C4_out_of_bounds_fail.2 (VacuumEnvironment.mk 2 [[0, 0], [0, 1]] 1) (-2) (-1)
      (by decide) (by decide) (by decide) (by decide) (by decide)).2⟩

/-- C5: on a well-formed grid and an in-bounds coordinate, cleaning a dirty
cell returns `True` and lowers the dirt count by exactly one, cleaning the
same cell again returns `False` and leaves the environment (grid included)
unchanged, and cleaning an initially clean cell returns `False` with no
side effect. -/
theorem C5_clean_idempotent (env : VacuumEnvironment) (x y : Nat)
    (hx : x < env.size) (hy : y < env.size) :
    (env.is_dirty x y = some true →
      ∃ env1, env.clean x y = some (true, env1) ∧
        sumGrid env1.grid + 1 = sumGrid env.grid ∧
        env1.clean x y = some (false, env1)) ∧
    (env.is_dirty x y = some false → env.clean x y = some (false, env)) := by
  constructor
  · intro hd
    obtain ⟨-, -, v, hget, hdv⟩ := is_dirty_inv env x y true hd
    have hv1 : v = 1 := by simpa using hdv.symm
    subst hv1
    refine ⟨_, clean_eval_dirty env x y hx hy hget, ?_, ?_⟩
    · have := sumGrid_setCell2 env.grid y x 1 0 hget
      simpa using this
    · have hget2 : getCell2 (setCell2 env.grid y x 0) y x = some 0 :=
        getCell2_setCell2_self env.grid y x 0 1 hget
      exact clean_eval_zero _ x y 0 hx hy hget2 (by omega)
  · intro hd
    obtain ⟨-, -, v, hget, hdv⟩ := is_dirty_inv env x y false hd
    have hv0 : v ≠ 1 := by
      intro h1
      subst h1
      simp at hdv
    exact clean_eval_zero env x y v hx hy hget hv0

/-- C5 (witness): on a concrete 2×2 environment with one dirty cell,
the double-clean behaviour at the dirty cell `(0, 0)` and the no-op clean
at the clean cell `(1, 0)`. -/
theorem C5_clean_idempotent_witness :
    (∃ env1, (VacuumEnvironment.mk 2 [[1, 0], [0, 0]] 1).clean 0 0 = some (true, env1) ∧
      sumGrid env1.grid + 1 = sumGrid (VacuumEnvironment.mk 2 [[1, 0], [0, 0]] 1).grid ∧
      env1.clean 0 0 = some (false, env1)) ∧
    (VacuumEnvironment.mk 2 [[1, 0], [0, 0]] 1).clean 1 0
      = some (false, VacuumEnvironment.mk 2 [[1, 0], [0, 0]] 1) :=
  ⟨(C5_clean_idempotent (VacuumEnvironment.mk 2 [[1, 0], [0, 0]] 1) 0 0
      (by decide) (by decide)).1 (by decide),
   (C5_clean_idempotent (VacuumEnvironment.mk 2 [[1, 0], [0, 0]] 1) 1 0
      (by decide) (by decide)).2 (by decide)⟩

/-- C6: `initial_dirt` equals the number of dirty cells of the grid at
construction time, and neither `clean` (whenever it returns normally) nor
any agent `act` ever changes it; `is_dirty` is modelled as a pure read, so
it cannot change it. -/
theorem C6_initial_dirt_frozen :
    (∀ (size : Nat) (sample : Nat → Nat → Bool),
      (VacuumEnvironment.init size sample).initial_dirt
        = countDirty (VacuumEnvironment.init size sample).grid) ∧
    (∀ (env : VacuumEnvironment) (x y : Int),
      ((env.clean x y).map fun r => r.2.initial_dirt).getD env.initial_dirt
        = env.initial_dirt) ∧
    (∀ (a : AgentS) (pick : Nat),
      ((a.act pick).map fun r => r.2.env.initial_dirt).getD a.env.initial_dirt
        = a.env.initial_dirt) := by
  refine ⟨?_, ?_, ?_⟩
  · intro size sample
    show sumGrid (mkGrid size sample) = countDirty (mkGrid size sample)
    exact sumGrid_eq_countDirty _ (mkGrid_wf size sample).2.2
  · intro env x y
    cases hc : env.clean x y with
    | none => rfl
    | some r =>
      obtain ⟨h1, -, -⟩ := clean_preserves env x y r.1 r.2 (by rw [hc])
      simp [h1]
  · intro a pick
    cases hact : a.act pick with
    | none => rfl
    | some r =>
      obtain ⟨-, h2, -⟩ := agentS_act_inv a pick r.1 r.2 (by rw [hact])
      simp [h2]

/-- C9 (counterexample): constructing an environment with `N = 0 < 1`
succeeds and returns a normal value (the empty grid with zero dirt) — the
source `__init__` performs no validation at all, so no
`InvalidConfiguration` is ever raised. -/
theorem C9_no_validation_counterexample :
    VacuumEnvironment.init 0 (fun _ _ => false) = VacuumEnvironment.mk 0 [] 0 := rfl

/-- C9 (amended): construction never fails: for every size (including
`N < 1`) and every sampled dirt pattern it returns a well-formed `N × N`
environment; neither the grid size nor the step budget is validated
anywhere (only a dirt probability outside `[0, 1]` happens to make
numpy's sampler itself raise, which the sampler argument abstracts). -/
theorem C9_construction_total :
    ∀ (size : Nat) (sample : Nat → Nat → Bool),
      (VacuumEnvironment.init size sample).size = size ∧
      (VacuumEnvironment.init size sample).grid.length = size ∧
      gridWF size (VacuumEnvironment.init size sample).grid := by
  intro size sample
  exact ⟨rfl, (mkGrid_wf size sample).1, mkGrid_wf size sample⟩

/-- C2: for both agent variants, whenever the current cell is dirty and the
move counter is below the step budget, `act` returns `CLEAN` (never a
movement direction), leaves the position unchanged, and increments
`cleaned` exactly when the environment's `clean` call returns `True`
(which it does here, the cell being dirty). -/
theorem C2_dirty_cell_cleans :
    (∀ (s : SimpleReflexAgent) (pick : Nat), s.moves < MAX_STEPS →
      s.env.is_dirty s.x s.y = some true →
      ∃ env1, s.env.clean s.x s.y = some (true, env1) ∧
        s.act pick = some (some Action.CLEAN,
          { s with
            moves := s.moves + 1
            env := env1
            cleaned := s.cleaned + 1 })) ∧
    (∀ (m : ModelBasedAgent) (pick : Nat), m.moves < MAX_STEPS →
      m.env.is_dirty m.x m.y = some true →
      ∃ env1, m.env.clean m.x m.y = some (true, env1) ∧
        m.act pick = some (some Action.CLEAN,
          { m with
            moves := m.moves + 1
            env := env1
            cleaned := m.cleaned + 1
            memory := setCell2 (setCell2 m.memory m.y m.x 1) m.y m.x 0 })) := by
  constructor
  · intro s pick hm hd
    obtain ⟨hx, hy, v, hget, hdv⟩ := is_dirty_inv s.env s.x s.y true hd
    have hv1 : v = 1 := by simpa using hdv.symm
    subst hv1
    have hc := clean_eval_dirty s.env s.x s.y hx hy hget
    exact ⟨_, hc, reflex_act_dirty s pick true _ hm hd hc⟩
  · intro m pick hm hd
    obtain ⟨hx, hy, v, hget, hdv⟩ := is_dirty_inv m.env m.x m.y true hd
    have hv1 : v = 1 := by simpa using hdv.symm
    subst hv1
    have hc := clean_eval_dirty m.env m.x m.y hx hy hget
    exact ⟨_, hc, model_act_dirty m pick _ hm hd hc⟩

/-- C2 (witness): on a 1×1 dirty grid, both fresh agents return `CLEAN`
from their first `act` call. -/
theorem C2_dirty_cell_cleans_witness :
    (((SimpleReflexAgent.init (VacuumEnvironment.mk 1 [[1]] 1)).act 0).map
        fun r => r.1) = some (some Action.CLEAN) ∧
    (((ModelBasedAgent.init (VacuumEnvironment.mk 1 [[1]] 1)).act 0).map
        fun r => r.1) = some (some Action.CLEAN) := by
  constructor
  · obtain ⟨env1, -, hact⟩ := C2_dirty_cell_cleans.1
      (SimpleReflexAgent.init (VacuumEnvironment.mk 1 [[1]] 1)) 0 (by decide) (by decide)
    rw [hact]
    rfl
  · obtain ⟨env1, -, hact⟩ := C2_dirty_cell_cleans.2
      (ModelBasedAgent.init (VacuumEnvironment.mk 1 [[1]] 1)) 0 (by decide) (by decide)
    rw [hact]
    rfl

/-- C8: `perceive` records the current cell's actual state into the memory
entry of that cell, overwriting the prior value, and never touches the
environment; after cleaning a dirty cell the memory entry is forced to `0`
(known-clean), the environment cell reads clean, and perceiving there again
records `0` — never `1` (known-dirty) — again without touching the
environment. -/
theorem C8_memory_tracks_cleaning (m : ModelBasedAgent) (pick : Nat) (d : Bool)
    (hd : m.env.is_dirty m.x m.y = some d)
    (hylen : m.y < m.memory.length)
    (hxlen : ∀ row ∈ m.memory, m.x < row.length) :
    m.perceive
      = some (d, { m with memory := setCell2 m.memory m.y m.x (if d then 1 else 0) }) ∧
    (∀ mp, m.perceive = some (d, mp) → mp.env = m.env) ∧
    (d = true → m.moves < MAX_STEPS →
      ∃ m1, m.act pick = some (some Action.CLEAN, m1) ∧
        getCell2 m1.memory m.y m.x = some 0 ∧
        m1.env.is_dirty m.x m.y = some false ∧ m1.x = m.x ∧ m1.y = m.y ∧
        ∃ m2, m1.perceive = some (false, m2) ∧
          getCell2 m2.memory m.y m.x = some 0 ∧ m2.env = m1.env) := by
  refine ⟨model_perceive_eval m d hd, ?_, ?_⟩
  · intro mp h
    obtain ⟨-, hmp⟩ := model_perceive_inv m d mp h
    rw [hmp]
  · intro hdt hm
    subst hdt
    obtain ⟨hx, hy, v, hget, hdv⟩ := is_dirty_inv m.env m.x m.y true hd
    have hv1 : v = 1 := by simpa using hdv.symm
    subst hv1
    have hc := clean_eval_dirty m.env m.x m.y hx hy hget
    obtain ⟨w, hw⟩ := getCell2_exists_of_lt m.memory m.y m.x hylen hxlen
    have hmem1 : getCell2 (setCell2 m.memory m.y m.x 1) m.y m.x = some 1 :=
      getCell2_setCell2_self m.memory m.y m.x 1 w hw
    have hmem0 : getCell2 (setCell2 (setCell2 m.memory m.y m.x 1) m.y m.x 0) m.y m.x
        = some 0 :=
      getCell2_setCell2_self (setCell2 m.memory m.y m.x 1) m.y m.x 0 1 hmem1
    have hgrid0 : getCell2 (setCell2 m.env.grid m.y m.x 0) m.y m.x = some 0 :=
      getCell2_setCell2_self m.env.grid m.y m.x 0 1 hget
    have hdirty1 : ({ m.env with grid := setCell2 m.env.grid m.y m.x 0 }
        : VacuumEnvironment).is_dirty m.x m.y = some false := by
      simpa using is_dirty_eval { m.env with grid := setCell2 m.env.grid m.y m.x 0 }
        m.x m.y 0 hx hy hgrid0
    have hperc2 := model_perceive_eval
      { m with
        moves := m.moves + 1
        env := { m.env with grid := setCell2 m.env.grid m.y m.x 0 }
        cleaned := m.cleaned + 1
        memory := setCell2 (setCell2 m.memory m.y m.x 1) m.y m.x 0 } false hdirty1
    have hmem00 : getCell2
        (setCell2 (setCell2 (setCell2 m.memory m.y m.x 1) m.y m.x 0) m.y m.x 0)
        m.y m.x = some 0 :=
      getCell2_setCell2_self (setCell2 (setCell2 m.memory m.y m.x 1) m.y m.x 0)
        m.y m.x 0 0 hmem0
    exact ⟨_, model_act_dirty m pick _ hm hd hc, hmem0, hdirty1, rfl, rfl,
      _, hperc2, hmem00, rfl⟩

/-- C8 (witness): on a 1×1 dirty grid, the fresh model-based agent's first
`act` cleans the cell and leaves the memory entry at known-clean (`0`). -/
theorem C8_memory_tracks_cleaning_witness :
    (((ModelBasedAgent.init (VacuumEnvironment.mk 1 [[1]] 1)).act 0).map
      fun r => (r.1, getCell2 r.2.memory 0 0)) = some (some Action.CLEAN, some 0) := by
  obtain ⟨-, -, h3⟩ := C8_memory_tracks_cleaning
    (ModelBasedAgent.init (VacuumEnvironment.mk 1 [[1]] 1)) 0 true
    (by decide) (by decide) (by decide)
  obtain ⟨m1, hact, hmem, -⟩ := h3 rfl (by decide)
  have hmem' : getCell2 m1.memory 0 0 = some 0 := hmem
  rw [hact]
  simp [hmem']

/-- C3: the candidate moves are exactly the orthogonal in-bounds neighbours
of the current position; at the corner `(0, 0)` of an `N × N` grid with
`N ≥ 2` there are exactly 2 candidates, all in bounds; and on a clean cell
below the step budget the destination the memory-augmented agent picks
lies in the unexplored subset when that subset is non-empty, otherwise in
the full candidate set. -/
theorem C3_frontier_selection :
    (∀ (N x y nx ny : Nat), x < N → y < N →
      ((∃ d, (d, nx, ny) ∈ possibleMoves N x y) ↔
        (nx < N ∧ ny < N ∧
          ((nx = x + 1 ∧ ny = y) ∨ (nx + 1 = x ∧ ny = y) ∨
           (nx = x ∧ ny = y + 1) ∨ (nx = x ∧ ny + 1 = y))))) ∧
    (∀ N, 2 ≤ N → (possibleMoves N 0 0).length = 2 ∧
      ∀ d nx ny, (d, nx, ny) ∈ possibleMoves N 0 0 → nx < N ∧ ny < N) ∧
    (∀ (m : ModelBasedAgent) (pick : Nat), m.moves < MAX_STEPS →
      m.env.is_dirty m.x m.y = some false →
      possibleMoves m.env.size m.x m.y ≠ [] →
      ∃ d nx ny,
        m.act pick = some (some d,
          { m with
            moves := m.moves + 1
            x := nx
            y := ny
            memory := setCell2 m.memory m.y m.x 0 }) ∧
        (if (modelUnexplored { m with memory := setCell2 m.memory m.y m.x 0 }).isEmpty
         then (d, nx, ny) ∈ possibleMoves m.env.size m.x m.y
         else (d, nx, ny) ∈ modelUnexplored { m with memory := setCell2 m.memory m.y m.x 0 })) := by
  refine ⟨?_, ?_, ?_⟩
  · intro N x y nx ny hx hy
    constructor
    · rintro ⟨d, hd⟩
      rw [possibleMoves_mem] at hd
      rcases hd with ⟨h1, -, h2, h3⟩ | ⟨h1, -, h2, h3⟩ | ⟨h1, -, h2, h3⟩ | ⟨h1, -, h2, h3⟩
      · exact ⟨by omega, by omega, Or.inl ⟨by omega, by omega⟩⟩
      · exact ⟨by omega, by omega, Or.inr (Or.inl ⟨by omega, by omega⟩)⟩
      · exact ⟨by omega, by omega, Or.inr (Or.inr (Or.inl ⟨by omega, by omega⟩))⟩
      · exact ⟨by omega, by omega, Or.inr (Or.inr (Or.inr ⟨by omega, by omega⟩))⟩
    · rintro ⟨hnx, hny, h | h | h | h⟩
      · exact ⟨Action.RIGHT, (possibleMoves_mem N x y _ nx ny).mpr
          (Or.inl ⟨by omega, rfl, by omega, by omega⟩)⟩
      · exact ⟨Action.LEFT, (possibleMoves_mem N x y _ nx ny).mpr
          (Or.inr (Or.inl ⟨by omega, rfl, by omega, by omega⟩))⟩
      · exact ⟨Action.DOWN, (possibleMoves_mem N x y _ nx ny).mpr
          (Or.inr (Or.inr (Or.inl ⟨by omega, rfl, by omega, by omega⟩)))⟩
      · exact ⟨Action.UP, (possibleMoves_mem N x y _ nx ny).mpr
          (Or.inr (Or.inr (Or.inr ⟨by omega, rfl, by omega, by omega⟩)))⟩
  · intro N hN
    constructor
    · have h1 : 0 < N - 1 := by omega
      simp [possibleMoves, h1]
    · intro d nx ny hmem
      exact possibleMoves_bounds N 0 0 nx ny d (by omega) (by omega) hmem
  · intro m pick hm hd hpm
    have hcands : modelCandidates { m with memory := setCell2 m.memory m.y m.x 0 } ≠ [] :=
      modelCandidates_ne_nil _ hpm
    obtain ⟨⟨d, nx, ny⟩, hch, hmem⟩ := randomChoice_of_ne_nil _ pick hcands
    refine ⟨d, nx, ny, model_act_move m pick d nx ny hm hd hch, ?_⟩
    unfold modelCandidates at hmem
    split at hmem
    · rename_i hempty
      rw [if_pos hempty]
      exact hmem
    · rename_i hempty
      rw [if_neg hempty]
      exact hmem

/-- C3 (witness): on a 2×2 grid with a clean start cell, the neighbour
characterisation and corner count at `(0, 0)`, and the fresh model-based
agent's first move from the clean start cell. -/
theorem C3_frontier_selection_witness :
    (∃ d, (d, 1, 0) ∈ possibleMoves 2 0 0) ∧
    (possibleMoves 2 0 0).length = 2 ∧
    ∃ d nx ny,
      (ModelBasedAgent.init (VacuumEnvironment.mk 2 [[0, 1], [0, 0]] 1)).act 0
        = some (some d,
          { ModelBasedAgent.init (VacuumEnvironment.mk 2 [[0, 1], [0, 0]] 1) with
            moves := 1
            x := nx
            y := ny
            memory := setCell2
              (ModelBasedAgent.init (VacuumEnvironment.mk 2 [[0, 1], [0, 0]] 1)).memory
              0 0 0 }) ∧
      (if (modelUnexplored
            { ModelBasedAgent.init (VacuumEnvironment.mk 2 [[0, 1], [0, 0]] 1) with
              memory := setCell2
                (ModelBasedAgent.init (VacuumEnvironment.mk 2 [[0, 1], [0, 0]] 1)).memory
                0 0 0 }).isEmpty
       then (d, nx, ny) ∈ possibleMoves 2 0 0
       else (d, nx, ny) ∈ modelUnexplored
          { ModelBasedAgent.init (VacuumEnvironment.mk 2 [[0, 1], [0, 0]] 1) with
            memory := setCell2
              (ModelBasedAgent.init (VacuumEnvironment.mk 2 [[0, 1], [0, 0]] 1)).memory
              0 0 0 }) :=
  ⟨(C3_frontier_selection.1 2 0 0 1 0 (by decide) (by decide)).mpr (by decide),
   (C3_frontier_selection.2.1 2 (by decide)).1,
   C3_frontier_selection.2.2 (ModelBasedAgent.init (VacuumEnvironment.mk 2 [[0, 1], [0, 0]] 1))
     0 (by decide) (by decide) (by decide)⟩

/-- C7 (counterexample): on a 1×1 grid with a dirty cell, the first `act`
cleans (cleaned becomes 1), but the very next `act` call — still far below
the budget — does NOT return `CLEAN`: the cell is now clean, the candidate
list is empty, and `random.choice` raises `IndexError` (`none`). This
refutes "every subsequent act() call before budget exhaustion returns
CLEAN". -/
theorem C7_second_act_raises_counterexample :
    (((SimpleReflexAgent.init (VacuumEnvironment.mk 1 [[1]] 1)).act 0).map
      fun r => (r.1, r.2.cleaned)) = some (some Action.CLEAN, 1) ∧
    (((SimpleReflexAgent.init (VacuumEnvironment.mk 1 [[1]] 1)).act 0).bind
      fun r => r.2.act 0) = none := by
  constructor <;> rfl

/-- C7 (amended): on a 1×1 grid the agent has 0 admissible moves; if the
cell is dirty, `act` cleans it on the first call (cleaned goes up by one,
remaining dirt hits 0, position stays `(0, 0)`), and a subsequent `act`
call below the budget does not return `CLEAN` but fails (`IndexError` on
the empty candidate list) — the runner, however, stops at convergence
before any such call. -/
theorem C7_one_by_one_grid (s : SimpleReflexAgent) (pick pick2 : Nat)
    (hsz : s.env.size = 1) (hgrid : s.env.grid = [[1]])
    (hx : s.x = 0) (hy : s.y = 0) (hm : s.moves < MAX_STEPS) :
    possibleMoves s.env.size s.x s.y = [] ∧
    ∃ s1, s.act pick = some (some Action.CLEAN, s1) ∧
      s1.cleaned = s.cleaned + 1 ∧ s1.moves = s.moves + 1 ∧
      s1.x = 0 ∧ s1.y = 0 ∧ sumGrid s1.env.grid = 0 ∧
      (s1.moves < MAX_STEPS → s1.act pick2 = none) := by
  have hpm0 : possibleMoves s.env.size s.x s.y = [] := by
    rw [hsz, hx, hy]
    rfl
  have hget : getCell2 s.env.grid s.y s.x = some 1 := by
    rw [hgrid, hx, hy]
    rfl
  have hxlt : s.x < s.env.size := by omega
  have hylt : s.y < s.env.size := by omega
  have hd : s.env.is_dirty s.x s.y = some true := by
    simpa using is_dirty_eval s.env s.x s.y 1 hxlt hylt hget
  have hc := clean_eval_dirty s.env s.x s.y hxlt hylt hget
  refine ⟨hpm0, _, reflex_act_dirty s pick true _ hm hd hc, rfl, rfl, hx, hy, ?_, ?_⟩
  · show sumGrid (setCell2 s.env.grid s.y s.x 0) = 0
    rw [hx, hy, hgrid]
    rfl
  · intro hm1
    apply reflex_act_empty
    · exact hm1
    · have hget0 : getCell2 (setCell2 s.env.grid s.y s.x 0) s.y s.x = some 0 :=
        getCell2_setCell2_self s.env.grid s.y s.x 0 1 hget
      show ({ s.env with grid := setCell2 s.env.grid s.y s.x 0 }
        : VacuumEnvironment).is_dirty s.x s.y = some false
      simpa using is_dirty_eval
        { s.env with grid := setCell2 s.env.grid s.y s.x 0 } s.x s.y 0 hxlt hylt hget0
    · show possibleMoves s.env.size s.x s.y = []
      exact hpm0

/-- C7 (witness for the amended theorem): the fresh reflex agent on the
concrete dirty 1×1 grid. -/
theorem C7_one_by_one_grid_witness :
    ∃ s1, (SimpleReflexAgent.init (VacuumEnvironment.mk 1 [[1]] 1)).act 0
        = some (some Action.CLEAN, s1) ∧ s1.cleaned = 1 ∧
      sumGrid s1.env.grid = 0 ∧ s1.act 0 = none := by
  obtain ⟨-, s1, hact, hcl, hmv, -, -, hsum, hnext⟩ :=
    C7_one_by_one_grid (SimpleReflexAgent.init (VacuumEnvironment.mk 1 [[1]] 1)) 0 0
      rfl rfl rfl rfl (by decide)
  exact ⟨s1, hact, hcl, hsum, hnext (by rw [hmv]; decide)⟩

/-- C10: for either agent variant bound to a freshly constructed
environment, after any sequence of `act` calls that returns normally,
`cleaned` plus the remaining dirt equals `initial_dirt`; in particular
`cleaned` never exceeds `initial_dirt`. -/
theorem C10_dirt_conservation (kind : AgentKind) (size : Nat)
    (sample : Nat → Nat → Bool) (picks : List Nat) (a1 : AgentS)
    (h : iterActs (kind.mkAgent (VacuumEnvironment.init size sample)) picks = some a1) :
    a1.cleaned + sumGrid a1.env.grid = (VacuumEnvironment.init size sample).initial_dirt ∧
    a1.cleaned ≤ (VacuumEnvironment.init size sample).initial_dirt := by
  obtain ⟨h1, -⟩ := iterActs_inv picks _ a1 h
  have hc0 : (kind.mkAgent (VacuumEnvironment.init size sample)).cleaned = 0 := by
    cases kind <;> rfl
  have he : sumGrid (kind.mkAgent (VacuumEnvironment.init size sample)).env.grid
      = (VacuumEnvironment.init size sample).initial_dirt := by
    cases kind <;> rfl
  constructor <;> omega

/-- C10 (witness): a one-step run of the reflex agent on a dirty 1×1
freshly constructed environment. -/
theorem C10_dirt_conservation_witness :
    ∃ a1, iterActs (AgentKind.reflex.mkAgent (VacuumEnvironment.init 1 fun _ _ => true))
        [0] = some a1 ∧
      a1.cleaned + sumGrid a1.env.grid
        = (VacuumEnvironment.init 1 fun _ _ => true).initial_dirt ∧
      a1.cleaned ≤ (VacuumEnvironment.init 1 fun _ _ => true).initial_dirt := by
  refine ⟨AgentS.reflex ⟨⟨1, [[0]], 1⟩, 0, 0, 1, 1⟩, rfl, ?_⟩
  exact C10_dirt_conservation AgentKind.reflex 1 (fun _ _ => true) [0] _ rfl

set_option maxRecDepth 8000 in
/-- C1 (counterexample): with step budget `B = 201 > MAX_STEPS` on a 2×2
environment whose dirt the bouncing reflex agent never reaches (all picks
0), the runner stops after exactly 201 steps while the agent's
`move_count` has saturated at 200 and dirt remains — so neither disjunct
of the claim holds and the runner/agent counters are not in lockstep. -/
theorem C1_budget_above_cap_counterexample :
    (runSim AgentKind.reflex (VacuumEnvironment.mk 2 [[0, 0], [0, 1]] 1) (fun _ => 0)
      201).map (fun r => (r.1, r.2.moves, sumGrid r.2.env.grid)) = some (201, 200, 1) := by
  rfl

/-- C1 (amended): the claim holds whenever the runner's budget `B` does not
exceed the agents' internal cap `MAX_STEPS = 200` (in the program the
runner is always invoked with `B = MAX_STEPS`): the run returns normally,
the runner's final step counter equals the agent's `move_count`
throughout (stated at the final state), and the run either converged to
zero dirt within `B` steps — the loop stops before any further `act`
call — or stopped after exactly `B` steps. -/
theorem C1_runner_budget_le_cap (kind : AgentKind) (env : VacuumEnvironment)
    (picks : Nat → Nat) (B : Nat) (hB : B ≤ MAX_STEPS)
    (hwf : gridWF env.size env.grid) :
    ∃ steps1 a1, runSim kind env picks B = some (steps1, a1) ∧
      a1.moves = steps1 ∧
      ((sumGrid a1.env.grid = 0 ∧ steps1 ≤ B) ∨ steps1 = B) := by
  obtain ⟨steps1, a1, hrun, -, hmv, -, hub, hdisj⟩ :=
    runAux_spec picks env.size B 0 (kind.mkAgent env) (mkAgent_InvA kind env hwf)
      (mkAgent_moves kind env) (by omega)
  refine ⟨steps1, a1, hrun, hmv, ?_⟩
  rcases hdisj with h | h
  · exact Or.inl ⟨h, by omega⟩
  · exact Or.inr (by omega)

/-- C1 (witness for the amended theorem): the reflex agent on a concrete
2×2 environment with budget 5. -/
theorem C1_runner_budget_le_cap_witness :
    ∃ steps1 a1, runSim AgentKind.reflex (VacuumEnvironment.mk 2 [[0, 0], [0, 1]] 1)
        (fun _ => 0) 5 = some (steps1, a1) ∧ a1.moves = steps1 ∧
      ((sumGrid a1.env.grid = 0 ∧ steps1 ≤ 5) ∨ steps1 = 5) :=
  C1_runner_budget_le_cap AgentKind.reflex (VacuumEnvironment.mk 2 [[0, 0], [0, 1]] 1)
    (fun _ => 0) 5 (by decide) (by decide)

end AIVacuum
